import Mathlib

/-!
Verification of the storage-engine and object-id specification of
`rust_database_engine` against the source.

Embedded source files:
* `src/database/src/document/object_id.rs` — `ObjectId` (12-byte
  timestamp-plus-random identifier, hex rendering, byte/hex round-trips).
* `src/database/src/storage/storage_engine.rs` — `DocumentId`,
  `StorageEngine::insert_document` (first-fit scan over resident pages).

The buffer pool, slotted-page layout, paged file and document encoder are
only called from `storage_engine.rs`; their code is not part of the sources
at hand, so they are modelled from the specification (each such definition
carries a doc comment starting with "Modelled from the spec").
-/

namespace RustDb

/-! ## ObjectId (src/database/src/document/object_id.rs) -/

/-- Rust `ObjectId` holds `bytes: [u8; 12]`; bytes are modelled as natural
numbers below 256, the fixed length 12 is carried as a hypothesis where it
matters. -/
structure ObjectId where
  bytes : List Nat
deriving Repr, DecidableEq

/-- Rust `u32::to_be_bytes`: big-endian byte decomposition of a 32-bit
value. -/
def u32ToBeBytes (n : Nat) : List Nat :=
  [n / 16777216 % 256, n / 65536 % 256, n / 256 % 256, n % 256]

/-- Rust `u32::from_be_bytes`: big-endian recomposition of the byte list. -/
def u32FromBeBytes (bs : List Nat) : Nat :=
  bs.foldl (fun acc b => acc * 256 + b) 0

/-- Lowercase hexadecimal digit character of a value below 16, as produced
both by Rust two-digit lowercase hex formatting and by the hex crate's
`encode_hex`. -/
def hexDigit (n : Nat) : Char :=
  if n < 10 then Char.ofNat (48 + n) else Char.ofNat (87 + n)

/-- Two lowercase hex digits of one byte — what one `write!` call of the
Display impl emits for a byte, and one byte's contribution to
`encode_hex`. -/
def byteToHex (b : Nat) : List Char :=
  [hexDigit (b / 16), hexDigit (b % 16)]

/-- Rust `impl fmt::Display for ObjectId`: each byte written as two
lowercase hex digits. -/
def ObjectId.display (o : ObjectId) : String :=
  String.mk ((o.bytes.map byteToHex).flatten)

/-- Rust `ObjectId::to_hex`: `self.bytes.encode_hex()`, the lowercase hex
string of the 12 bytes. -/
def ObjectId.to_hex (o : ObjectId) : String :=
  String.mk ((o.bytes.map byteToHex).flatten)

/-- Rust `ObjectId::new`: the first 4 bytes are the big-endian Unix
timestamp in seconds truncated to `u32` (`as_secs() as u32`), the remaining
8 bytes come from the random generator.  The current time and the drawn
random bytes are explicit arguments of the model. -/
def ObjectId.new (nowSecs : Nat) (randomBytes : List Nat) : ObjectId :=
  ⟨u32ToBeBytes (nowSecs % 4294967296) ++ randomBytes⟩

/-- Rust `ObjectId::from_bytes`. -/
def ObjectId.from_bytes (bs : List Nat) : ObjectId :=
  ⟨bs⟩

/-- Rust `ObjectId::to_bytes`. -/
def ObjectId.to_bytes (o : ObjectId) : List Nat :=
  o.bytes

/-- Error kinds of the hex crate's decoder as far as a 12-byte target is
concerned: a character outside the hex alphabet, or a length other than
24. -/
inductive FromHexError where
  | invalidHexCharacter
  | invalidStringLength
deriving Repr, DecidableEq

/-- Value of one hex digit character as accepted by the hex crate
(decimal digits, lowercase and uppercase letters). -/
def hexDigitVal (c : Char) : Option Nat :=
  if 48 ≤ c.toNat ∧ c.toNat ≤ 57 then some (c.toNat - 48)
  else if 97 ≤ c.toNat ∧ c.toNat ≤ 102 then some (c.toNat - 87)
  else if 65 ≤ c.toNat ∧ c.toNat ≤ 70 then some (c.toNat - 55)
  else none

/-- Pairwise hex decoding of a character list into bytes (the hex crate's
decoder; `none` on an odd length or an invalid character). -/
def hexDecode : List Char → Option (List Nat)
  | [] => some []
  | [_] => none
  | c1 :: c2 :: rest =>
    match hexDigitVal c1, hexDigitVal c2, hexDecode rest with
    | some hi, some lo, some bs => some ((16 * hi + lo) :: bs)
    | _, _, _ => none

/-- Rust `ObjectId::from_hex`: `<[u8; 12]>::from_hex(s)` — the string must
be exactly 24 hex digits, decoding to the 12 bytes. -/
def ObjectId.from_hex (s : String) : Except FromHexError ObjectId :=
  if s.data.length = 24 then
    match hexDecode s.data with
    | some bs => .ok ⟨bs⟩
    | none => .error .invalidHexCharacter
  else .error .invalidStringLength

/-- Rust `ObjectId::timestamp`: decodes the big-endian `u32` prefix of the
bytes; the returned `DateTime<Utc>` is modelled by its Unix-seconds
value. -/
def ObjectId.timestamp (o : ObjectId) : Nat :=
  u32FromBeBytes (o.bytes.take 4)

/-- Property of being a lowercase hexadecimal digit character. -/
abbrev IsLowerHexDigit (c : Char) : Prop :=
  (48 ≤ c.toNat ∧ c.toNat ≤ 57) ∨ (97 ≤ c.toNat ∧ c.toNat ≤ 102)

theorem string_mk_length (cs : List Char) : (String.mk cs).length = cs.length :=
  rfl

theorem u32_to_from_be (m : Nat) (h : m < 4294967296) :
    u32FromBeBytes (u32ToBeBytes m) = m := by
  simp [u32FromBeBytes, u32ToBeBytes, List.foldl]
  omega

theorem hexDigit_isLowerFin : ∀ n : Fin 16, IsLowerHexDigit (hexDigit n.val) := by
  decide

theorem hexDigit_isLower (n : Nat) (h : n < 16) : IsLowerHexDigit (hexDigit n) :=
  hexDigit_isLowerFin ⟨n, h⟩

theorem hexDigitVal_hexDigitFin : ∀ n : Fin 16, hexDigitVal (hexDigit n.val) = some n.val := by
  decide

theorem hexDigitVal_hexDigit (n : Nat) (h : n < 16) : hexDigitVal (hexDigit n) = some n :=
  hexDigitVal_hexDigitFin ⟨n, h⟩

theorem hexJoin_length (l : List Nat) :
    ((l.map byteToHex).flatten).length = 2 * l.length := by
  induction l with
  | nil => simp
  | cons b l ih => simp [byteToHex, ih]; ring

theorem hexJoin_chars (l : List Nat) (hl : ∀ b ∈ l, b < 256) :
    ∀ c ∈ (l.map byteToHex).flatten, IsLowerHexDigit c := by
  induction l with
  | nil => intro c hc; simp at hc
  | cons b l ih =>
    intro c hc
    have hb : b < 256 := hl b (by simp)
    rw [List.map_cons, List.flatten_cons] at hc
    rcases List.mem_append.mp hc with h | h
    · rw [byteToHex] at h
      rcases List.mem_cons.mp h with h1 | h1
      · rw [h1]; exact hexDigit_isLower (b / 16) (by omega)
      · rcases List.mem_cons.mp h1 with h2 | h2
        · rw [h2]; exact hexDigit_isLower (b % 16) (by omega)
        · exact absurd h2 (List.not_mem_nil c)
    · exact ih (fun x hx => hl x (by simp [hx])) c h

theorem hexDecode_encode (l : List Nat) (hl : ∀ b ∈ l, b < 256) :
    hexDecode ((l.map byteToHex).flatten) = some l := by
  induction l with
  | nil => simp [hexDecode]
  | cons b l ih =>
    have hb : b < 256 := hl b (by simp)
    have h1 : hexDigitVal (hexDigit (b / 16)) = some (b / 16) :=
      hexDigitVal_hexDigit _ (by omega)
    have h2 : hexDigitVal (hexDigit (b % 16)) = some (b % 16) :=
      hexDigitVal_hexDigit _ (by omega)
    have ihr := ih (fun x hx => hl x (by simp [hx]))
    simp [byteToHex, hexDecode, h1, h2, ihr]
    omega

/-- C8: every ObjectId produced by the generator is 12 bytes, first 4 the
big-endian Unix timestamp at creation, remaining 8 the drawn random bytes;
`to_hex` and `Display` render exactly 24 lowercase hex characters; and
`timestamp` decodes the big-endian 4-byte prefix back to the creation
time. -/
theorem objectId_new_layout (nowSecs : Nat) (randomBytes : List Nat)
    (hnow : nowSecs < 4294967296) (hlen : randomBytes.length = 8)
    (hrand : ∀ b ∈ randomBytes, b < 256) :
    (ObjectId.new nowSecs randomBytes).bytes.length = 12 ∧
    (ObjectId.new nowSecs randomBytes).bytes.take 4 = u32ToBeBytes nowSecs ∧
    (ObjectId.new nowSecs randomBytes).bytes.drop 4 = randomBytes ∧
    (ObjectId.new nowSecs randomBytes).to_hex.length = 24 ∧
    (ObjectId.new nowSecs randomBytes).display.length = 24 ∧
    (∀ c ∈ (ObjectId.new nowSecs randomBytes).to_hex.data, IsLowerHexDigit c) ∧
    (∀ c ∈ (ObjectId.new nowSecs randomBytes).display.data, IsLowerHexDigit c) ∧
    (ObjectId.new nowSecs randomBytes).timestamp = nowSecs := by
  have hmod : nowSecs % 4294967296 = nowSecs := Nat.mod_eq_of_lt hnow
  have hbytes : (ObjectId.new nowSecs randomBytes).bytes =
      u32ToBeBytes nowSecs ++ randomBytes := by
    simp [ObjectId.new, hmod]
  have hlen4 : (u32ToBeBytes nowSecs).length = 4 := by
    simp [u32ToBeBytes]
  have htake : (ObjectId.new nowSecs randomBytes).bytes.take 4 = u32ToBeBytes nowSecs := by
    rw [hbytes, List.take_left' hlen4]
  have hall : ∀ b ∈ (ObjectId.new nowSecs randomBytes).bytes, b < 256 := by
    rw [hbytes]
    intro b hb
    rcases List.mem_append.mp hb with h | h
    · simp [u32ToBeBytes] at h
      rcases h with h | h | h | h <;> omega
    · exact hrand b h
  refine ⟨?_, htake, ?_, ?_, ?_, ?_, ?_, ?_⟩
  · rw [hbytes]; simp [hlen4, hlen]
  · rw [hbytes, List.drop_left' hlen4]
  · rw [ObjectId.to_hex, string_mk_length, hexJoin_length, hbytes]
    simp [hlen4, hlen]
  · rw [ObjectId.display, string_mk_length, hexJoin_length, hbytes]
    simp [hlen4, hlen]
  · exact fun c hc => hexJoin_chars _ hall c hc
  · exact fun c hc => hexJoin_chars _ hall c hc
  · rw [ObjectId.timestamp, htake, u32_to_from_be nowSecs hnow]

/-- Witness for C8 at a concrete creation time and concrete random bytes. -/
theorem objectId_new_layout_witness :
    (ObjectId.new 1735689600 [222, 173, 190, 239, 1, 2, 3, 4]).timestamp = 1735689600 ∧
    (ObjectId.new 1735689600 [222, 173, 190, 239, 1, 2, 3, 4]).to_hex.length = 24 :=
  ⟨(objectId_new_layout 1735689600 [222, 173, 190, 239, 1, 2, 3, 4]
      (by decide) (by decide) (by decide)).2.2.2.2.2.2.2,
   (objectId_new_layout 1735689600 [222, 173, 190, 239, 1, 2, 3, 4]
      (by decide) (by decide) (by decide)).2.2.2.1⟩

/-- C10: byte and hex round-trips — `to_bytes (from_bytes b) = b`,
`from_hex (to_hex (from_bytes b))` succeeds and returns `from_bytes b`,
and the `Display` rendering of every ObjectId equals `to_hex`. -/
theorem objectId_roundtrips (b : List Nat) (hlen : b.length = 12)
    (hb : ∀ x ∈ b, x < 256) :
    (ObjectId.from_bytes b).to_bytes = b ∧
    ObjectId.from_hex (ObjectId.from_bytes b).to_hex = .ok (ObjectId.from_bytes b) ∧
    ∀ o : ObjectId, o.display = o.to_hex := by
  refine ⟨rfl, ?_, fun o => rfl⟩
  have hdata : (ObjectId.from_bytes b).to_hex.data = (b.map byteToHex).flatten := rfl
  have hlen24 : (ObjectId.from_bytes b).to_hex.data.length = 24 := by
    rw [hdata, hexJoin_length, hlen]
  rw [ObjectId.from_hex, if_pos hlen24, hdata, hexDecode_encode b hb]
  rfl

/-- Witness for C10 at the concrete 12-byte array 1..12. -/
theorem objectId_roundtrips_witness :
    ObjectId.from_hex
        (ObjectId.from_bytes [1, 2, 3, 4, 5, 6, 7, 8, 9, 10, 11, 12]).to_hex =
      .ok (ObjectId.from_bytes [1, 2, 3, 4, 5, 6, 7, 8, 9, 10, 11, 12]) :=
  (objectId_roundtrips [1, 2, 3, 4, 5, 6, 7, 8, 9, 10, 11, 12]
    (by decide) (by decide)).2.1

/-! ## Storage engine (src/database/src/storage/storage_engine.rs)

The engine itself (`DocumentId`, `StorageEngine::insert_document`) is
embedded from the source.  Its collaborators (`BufferPool`, `PageLayout`,
`DatabaseFile`, the BSON encoder) are absent from the sources at hand and
are modelled from the specification (§4.1–§4.3, §6). -/

/-- Error kinds of the storage layer.  The Rust code uses `anyhow` string
errors; the spec names the kinds (§7).  `noSpaceAllocUnimplemented` stands
for the concrete message returned at the end of `insert_document`
("No existing page has sufficient space (N bytes needed) and new page
allocation is not yet implemented"); `documentTooLarge` is the kind the
spec prescribes for oversized documents. -/
inductive StorageError where
  | pageFull
  | slotNotFound
  | tombstoned
  | outOfRange
  | poolExhausted
  | serializationFailed
  | documentTooLarge
  | noSpaceAllocUnimplemented (documentSize : Nat)
deriving Repr, DecidableEq

/-- Observable buffer-pool and slotted-page events emitted while
`insert_document` runs, in program order: pinning and unpinning of a page
(with the `is_dirty` flag passed to `unpin_page`), disk reads and writes
performed by the pool, an invocation of `PageLayout::insert_document` on a
pinned page (recording the free space the engine observed), and a
successful slotted insert (recording the returned slot id). -/
inductive Ev where
  | pin (pageId : Nat)
  | unpin (pageId : Nat) (isDirty : Bool)
  | diskRead (pageId : Nat)
  | diskWrite (pageId : Nat)
  | insertAttempt (pageId : Nat) (freeSpace : Nat)
  | insertOk (pageId : Nat) (slotId : Nat)
deriving Repr, DecidableEq

/-- Number of pins of the given page in a trace. -/
def pinCount (pageId : Nat) : List Ev → Nat
  | [] => 0
  | e :: es =>
    (match e with
     | .pin p => if p = pageId then 1 else 0
     | _ => 0) + pinCount pageId es

/-- Number of unpins of the given page in a trace (either dirty flag). -/
def unpinCount (pageId : Nat) : List Ev → Nat
  | [] => 0
  | e :: es =>
    (match e with
     | .unpin p _ => if p = pageId then 1 else 0
     | _ => 0) + unpinCount pageId es

/-- Tests whether an event is a disk read. -/
def Ev.isDiskReadEv (e : Ev) : Bool :=
  match e with
  | .diskRead _ => true
  | _ => false

/-- Modelled from the spec: a slot directory entry `{offset, length,
tombstoned}` (§3); the payload bytes of the data region belonging to this
slot are attached to the entry in the shallow embedding. -/
structure Slot where
  offset : Nat
  length : Nat
  tombstoned : Bool
  payload : List Nat
deriving Repr, DecidableEq

/-- Modelled from the spec: one page (§3) — fixed `pageSize`, the slot
directory, and `freeSpaceStart`, the boundary of the data region growing
down from the end of the page. -/
structure SlottedPage where
  pageSize : Nat
  slots : List Slot
  freeSpaceStart : Nat
deriving Repr, DecidableEq

/-- Modelled from the spec: size in bytes of the page header
`{page_id, slot_count, free_space_start}` (4 + 2 + 2). -/
def headerSize : Nat := 8

/-- Modelled from the spec: size in bytes of one slot directory entry
`{offset, length, tombstoned}` (2 + 2 + 1) — the `slot_overhead` of the
free-space arithmetic. -/
def slotEntrySize : Nat := 5

/-- Modelled from the spec: `end_of_slot_directory` — the directory grows
upward immediately after the header (§3). -/
def SlottedPage.end_of_slot_directory (p : SlottedPage) : Nat :=
  headerSize + p.slots.length * slotEntrySize

/-- Modelled from the spec: `free_space = free_space_start −
end_of_slot_directory` (§3); the Rust engine calls it as
`page.get_free_space()`. -/
def SlottedPage.get_free_space (p : SlottedPage) : Nat :=
  p.freeSpaceStart - p.end_of_slot_directory

/-- Modelled from the spec: `SlottedPage.insert` (§4.2) — fails `PageFull`
when `bytes.len() + slot_entry_size > free_space` (no partial write);
otherwise appends a directory entry with `slot_id = slot_count`, writes the
bytes at the top of the shrinking data region and lowers
`free_space_start`. -/
def PageLayout.insert_document (p : SlottedPage) (bytes : List Nat) :
    Except StorageError (Nat × SlottedPage) :=
  if bytes.length + slotEntrySize > p.get_free_space then
    .error .pageFull
  else
    .ok (p.slots.length,
      { p with
        slots := p.slots ++ [⟨p.freeSpaceStart - bytes.length, bytes.length, false, bytes⟩],
        freeSpaceStart := p.freeSpaceStart - bytes.length })

/-- Modelled from the spec: `SlottedPage.read` (§4.2) — bounds-checks
`slot_id < slot_count` and rejects tombstoned slots. -/
def PageLayout.read_document (p : SlottedPage) (slotId : Nat) :
    Except StorageError (List Nat) :=
  match p.slots[slotId]? with
  | none => .error .slotNotFound
  | some s => if s.tombstoned then .error .tombstoned else .ok s.payload

/-- Modelled from the spec: the on-disk paged file (§4.1) — dense page ids,
`page_count = pages.length`. -/
structure DatabaseFile where
  pages : List SlottedPage
deriving Repr, DecidableEq

/-- Modelled from the spec: a buffer-pool frame (§3) — one resident page
with pin count and dirty flag. -/
structure Frame where
  pageId : Nat
  page : SlottedPage
  pinCount : Nat
  dirty : Bool
deriving Repr, DecidableEq

/-- Modelled from the spec: the bounded buffer pool (§4.3).  The paged file
is a field of the pool since the pool is "the sole place where PagedFile is
read or written" (§2).  The frame list holds at most `capacity` frames. -/
structure BufferPool where
  capacity : Nat
  frames : List Frame
  file : DatabaseFile
deriving Repr, DecidableEq

/-- Finds the frame of a page id and increments its pin count; `none` when
the page is not resident. -/
def pinFrames : List Frame → Nat → Option (SlottedPage × List Frame)
  | [], _ => none
  | f :: fs, pid =>
    if f.pageId == pid then some (f.page, { f with pinCount := f.pinCount + 1 } :: fs)
    else
      match pinFrames fs pid with
      | none => none
      | some (pg, fs2) => some (pg, f :: fs2)

/-- Decrements the pin count of the page's frame and ORs the sticky dirty
flag. -/
def unpinFrames : List Frame → Nat → Bool → List Frame
  | [], _, _ => []
  | f :: fs, pid, d =>
    if f.pageId == pid then
      { f with pinCount := f.pinCount - 1, dirty := f.dirty || d } :: fs
    else f :: unpinFrames fs pid d

/-- Replaces the resident page of a frame (the effect of mutating the page
buffer through the pinned handle). -/
def updateFrames : List Frame → Nat → SlottedPage → List Frame
  | [], _, _ => []
  | f :: fs, pid, pg =>
    if f.pageId == pid then { f with page := pg } :: fs
    else f :: updateFrames fs pid pg

/-- Removes the first frame with `pin_count = 0` (the eviction victim);
`none` when every frame is pinned. -/
def evictFrames : List Frame → Option (Frame × List Frame)
  | [] => none
  | f :: fs =>
    if f.pinCount == 0 then some (f, fs)
    else
      match evictFrames fs with
      | none => none
      | some (v, fs2) => some (v, f :: fs2)

/-- Modelled from the spec: `resident_page_ids` / the engine's
`get_all_page_ids()` snapshot — the page ids of the resident frames. -/
def BufferPool.get_all_page_ids (bp : BufferPool) : List Nat :=
  bp.frames.map (fun f => f.pageId)

/-- Modelled from the spec: `BufferPool::pin` (§4.3).  If resident, the pin
count is incremented and the buffer handed out.  If not resident it is read
from disk, evicting an unpinned victim first when the pool is at capacity
(flushing the victim when dirty); with no unpinned frame the pin fails
`PoolExhausted`; a page id beyond the file fails `OutOfRange`.  Returns the
page, the new pool and the emitted events. -/
def BufferPool.pin_page (bp : BufferPool) (pageId : Nat) :
    Except StorageError (SlottedPage × BufferPool × List Ev) :=
  match pinFrames bp.frames pageId with
  | some (page, frames2) =>
    .ok (page, ⟨bp.capacity, frames2, bp.file⟩, [Ev.pin pageId])
  | none =>
    match bp.file.pages[pageId]? with
    | none => .error .outOfRange
    | some page =>
      if bp.frames.length < bp.capacity then
        .ok (page, ⟨bp.capacity, bp.frames ++ [⟨pageId, page, 1, false⟩], bp.file⟩,
          [Ev.diskRead pageId, Ev.pin pageId])
      else
        match evictFrames bp.frames with
        | none => .error .poolExhausted
        | some (victim, frames2) =>
          let file2 : DatabaseFile :=
            if victim.dirty then ⟨bp.file.pages.set victim.pageId victim.page⟩
            else bp.file
          .ok (page,
            ⟨bp.capacity, frames2 ++ [⟨pageId, page, 1, false⟩], file2⟩,
            (if victim.dirty then [Ev.diskWrite victim.pageId] else []) ++
              [Ev.diskRead pageId, Ev.pin pageId])

/-- Modelled from the spec: `BufferPool::unpin` (§4.3) — decrements the pin
count and ORs the sticky dirty flag.  (The recency marker only orders later
evictions and is not tracked by this model.) -/
def BufferPool.unpin_page (bp : BufferPool) (pageId : Nat) (isDirty : Bool) :
    BufferPool × List Ev :=
  (⟨bp.capacity, unpinFrames bp.frames pageId isDirty, bp.file⟩,
   [Ev.unpin pageId isDirty])

/-- Writes a mutated page back into its resident frame: the Rust pin hands
out `&mut Page`, so a successful `PageLayout::insert_document` mutates the
pooled page in place. -/
def BufferPool.update_page (bp : BufferPool) (pageId : Nat) (page : SlottedPage) :
    BufferPool :=
  ⟨bp.capacity, updateFrames bp.frames pageId page, bp.file⟩

/-- Modelled from the spec: documents and the external BSON encoder (§6).
The encoder is specified only by its interface `encode : Document → bytes`,
`decode : bytes → Result<Document>`; a document is modelled by its encoded
byte string, which realises `decode ∘ encode = id`. -/
structure Document where
  encoded : List Nat
deriving Repr, DecidableEq

/-- Modelled from the spec: `serialize_document` of the external encoder. -/
def serialize_document (d : Document) : Except StorageError (List Nat) :=
  .ok d.encoded

/-- Modelled from the spec: `deserialize_document` of the external
encoder. -/
def deserialize_document (bytes : List Nat) : Except StorageError Document :=
  .ok ⟨bytes⟩

/-- Rust `DocumentId { page_id: u32, slot_id: u16 }`. -/
structure DocumentId where
  page_id : Nat
  slot_id : Nat
deriving Repr, DecidableEq

/-- The first-fit scan of `StorageEngine::insert_document` (lines 64–100 of
`storage_engine.rs`), recursing over the page-id snapshot: pin the
candidate (skipping it when the pin fails); when
`document_size <= free_space` call `PageLayout::insert_document` — on
success unpin dirty and return the `DocumentId`, on failure unpin clean and
continue; when the document does not fit, unpin clean and continue.  When
the snapshot is exhausted the code returns the
"new page allocation is not yet implemented" error.  Returns the result,
the updated pool and the trace of events. -/
def insertScan (documentBytes : List Nat) :
    BufferPool → List Nat → Except StorageError DocumentId × BufferPool × List Ev
  | bp, [] => (.error (.noSpaceAllocUnimplemented documentBytes.length), bp, [])
  | bp, pageId :: rest =>
    match bp.pin_page pageId with
    | .error _ => insertScan documentBytes bp rest
    | .ok (page, bp1, evs1) =>
      if documentBytes.length ≤ page.get_free_space then
        match PageLayout.insert_document page documentBytes with
        | .ok (slotId, page2) =>
          let u := ((bp1.update_page pageId page2).unpin_page pageId true)
          (.ok ⟨pageId, slotId⟩, u.1,
            evs1 ++ [Ev.insertAttempt pageId page.get_free_space,
                     Ev.insertOk pageId slotId] ++ u.2)
        | .error _ =>
          let u := bp1.unpin_page pageId false
          let next := insertScan documentBytes u.1 rest
          (next.1, next.2.1,
            evs1 ++ [Ev.insertAttempt pageId page.get_free_space] ++ u.2 ++ next.2.2)
      else
        let u := bp1.unpin_page pageId false
        let next := insertScan documentBytes u.1 rest
        (next.1, next.2.1, evs1 ++ u.2 ++ next.2.2)

/-- Rust `StorageEngine`: the paged file is only reached through the buffer
pool in the model (§2), so the engine state is the pool. -/
structure StorageEngine where
  buffer_pool : BufferPool
deriving Repr, DecidableEq

/-- Rust `StorageEngine::insert_document`: serialize the document, run the
first-fit scan over `get_all_page_ids()`, and fail with the
allocation-unimplemented error when no resident page accepted the
document. -/
def StorageEngine.insert_document (se : StorageEngine) (document : Document) :
    Except StorageError DocumentId × StorageEngine × List Ev :=
  match serialize_document document with
  | .error _ => (.error .serializationFailed, se, [])
  | .ok documentBytes =>
    let r := insertScan documentBytes se.buffer_pool se.buffer_pool.get_all_page_ids
    (r.1, ⟨r.2.1⟩, r.2.2)

/-- Modelled from the spec: `StorageEngine::get` (§4.4) — pin `id.page_id`,
`SlottedPage.read(slot_id)`, decode via the external decoder, unpin without
marking dirty. -/
def StorageEngine.get_document (se : StorageEngine) (id : DocumentId) :
    Except StorageError Document × StorageEngine × List Ev :=
  match se.buffer_pool.pin_page id.page_id with
  | .error e => (.error e, se, [])
  | .ok (page, bp1, evs1) =>
    match PageLayout.read_document page id.slot_id with
    | .error e =>
      let u := bp1.unpin_page id.page_id false
      (.error e, ⟨u.1⟩, evs1 ++ u.2)
    | .ok bytes =>
      let u := bp1.unpin_page id.page_id false
      match deserialize_document bytes with
      | .error e => (.error e, ⟨u.1⟩, evs1 ++ u.2)
      | .ok d => (.ok d, ⟨u.1⟩, evs1 ++ u.2)

/-! ## Helper lemmas on the buffer-pool operations -/

theorem pinFrames_of_mem (pid : Nat) :
    ∀ fs : List Frame, pid ∈ fs.map (fun f => f.pageId) →
      ∃ pg fs2, pinFrames fs pid = some (pg, fs2) ∧
        fs2.map (fun f => f.pageId) = fs.map (fun f => f.pageId) := by
  intro fs
  induction fs with
  | nil => intro h; simp at h
  | cons f fs ih =>
    intro h
    by_cases hf : f.pageId = pid
    · refine ⟨f.page, { f with pinCount := f.pinCount + 1 } :: fs, ?_, by simp⟩
      simp [pinFrames, hf]
    · have hmem : pid ∈ fs.map (fun f => f.pageId) := by
        rcases List.mem_cons.mp h with h1 | h1
        · exact absurd h1.symm hf
        · exact h1
      obtain ⟨pg, fs2, hrec, hids⟩ := ih hmem
      refine ⟨pg, f :: fs2, ?_, by simp [hids]⟩
      simp [pinFrames, hf, hrec]

theorem unpinFrames_ids (pid : Nat) (d : Bool) :
    ∀ fs : List Frame,
      (unpinFrames fs pid d).map (fun f => f.pageId) = fs.map (fun f => f.pageId) := by
  intro fs
  induction fs with
  | nil => rfl
  | cons f fs ih =>
    by_cases hf : f.pageId = pid
    · simp [unpinFrames, hf]
    · simp [unpinFrames, hf, ih]

theorem updateFrames_ids (pid : Nat) (pg : SlottedPage) :
    ∀ fs : List Frame,
      (updateFrames fs pid pg).map (fun f => f.pageId) = fs.map (fun f => f.pageId) := by
  intro fs
  induction fs with
  | nil => rfl
  | cons f fs ih =>
    by_cases hf : f.pageId = pid
    · simp [updateFrames, hf]
    · simp [updateFrames, hf, ih]

theorem pin_page_resident (bp : BufferPool) (pid : Nat)
    (h : pid ∈ bp.get_all_page_ids) :
    ∃ pg bp2, bp.pin_page pid = .ok (pg, bp2, [Ev.pin pid]) ∧
      bp2.get_all_page_ids = bp.get_all_page_ids := by
  obtain ⟨pg, fs2, hp, hids⟩ := pinFrames_of_mem pid bp.frames h
  exact ⟨pg, ⟨bp.capacity, fs2, bp.file⟩, by simp [BufferPool.pin_page, hp], hids⟩

theorem unpin_page_ids (bp : BufferPool) (pid : Nat) (d : Bool) :
    (bp.unpin_page pid d).1.get_all_page_ids = bp.get_all_page_ids :=
  unpinFrames_ids pid d bp.frames

theorem update_page_ids (bp : BufferPool) (pid : Nat) (pg : SlottedPage) :
    (bp.update_page pid pg).get_all_page_ids = bp.get_all_page_ids :=
  updateFrames_ids pid pg bp.frames

theorem pin_page_evs_cases (bp : BufferPool) (pid : Nat) (page : SlottedPage)
    (bp2 : BufferPool) (evs : List Ev)
    (h : bp.pin_page pid = .ok (page, bp2, evs)) :
    evs = [Ev.pin pid] ∨ evs = [Ev.diskRead pid, Ev.pin pid] ∨
      ∃ v, evs = [Ev.diskWrite v, Ev.diskRead pid, Ev.pin pid] := by
  unfold BufferPool.pin_page at h
  cases hp : pinFrames bp.frames pid with
  | some pr =>
    rw [hp] at h
    simp at h
    exact Or.inl h.2.2.symm
  | none =>
    simp only [hp] at h
    cases hg : bp.file.pages[pid]? with
    | none => simp only [hg] at h; simp at h
    | some pg =>
      simp only [hg] at h
      by_cases hc : bp.frames.length < bp.capacity
      · rw [if_pos hc] at h
        simp at h
        exact Or.inr (Or.inl h.2.2.symm)
      · rw [if_neg hc] at h
        cases he : evictFrames bp.frames with
        | none => simp only [he] at h; simp at h
        | some vp =>
          simp only [he] at h
          simp at h
          by_cases hd : vp.1.dirty
          · refine Or.inr (Or.inr ⟨vp.1.pageId, ?_⟩)
            rw [← h.2.2]
            simp [hd]
          · refine Or.inr (Or.inl ?_)
            rw [← h.2.2]
            simp [hd]

theorem pinCount_append (pid : Nat) (l1 l2 : List Ev) :
    pinCount pid (l1 ++ l2) = pinCount pid l1 + pinCount pid l2 := by
  induction l1 with
  | nil => simp [pinCount]
  | cons e es ih => simp [pinCount, ih]; ring

theorem unpinCount_append (pid : Nat) (l1 l2 : List Ev) :
    unpinCount pid (l1 ++ l2) = unpinCount pid l1 + unpinCount pid l2 := by
  induction l1 with
  | nil => simp [unpinCount]
  | cons e es ih => simp [unpinCount, ih]; ring

theorem pin_page_evs_counts (bp : BufferPool) (pid : Nat) (page : SlottedPage)
    (bp2 : BufferPool) (evs : List Ev)
    (h : bp.pin_page pid = .ok (page, bp2, evs)) (pid2 : Nat) :
    pinCount pid2 evs = (if pid = pid2 then 1 else 0) ∧
    unpinCount pid2 evs = 0 := by
  rcases pin_page_evs_cases bp pid page bp2 evs h with hc | hc | ⟨v, hc⟩ <;>
    subst hc <;>
    simp [pinCount, unpinCount]

theorem pin_page_evs_no_attempt (bp : BufferPool) (pid : Nat) (page : SlottedPage)
    (bp2 : BufferPool) (evs : List Ev)
    (h : bp.pin_page pid = .ok (page, bp2, evs)) (p fs : Nat) :
    Ev.insertAttempt p fs ∉ evs := by
  rcases pin_page_evs_cases bp pid page bp2 evs h with hc | hc | ⟨v, hc⟩ <;>
    subst hc <;> simp

/-! ## C1, C3, C5: missing page allocation (concrete evaluations) -/

/-- C1: the spec says a document fitting no resident page gets a freshly
allocated page; the code instead fails with the allocation-unimplemented
error.  Concrete run on an empty buffer pool. -/
theorem insert_document_allocation_unimplemented :
    (StorageEngine.insert_document ⟨⟨4, [], ⟨[]⟩⟩⟩ ⟨[1, 2, 3]⟩).1 =
      .error (.noSpaceAllocUnimplemented 3) := by
  rfl

/-- C3: the round-trip `get(insert(doc))` cannot hold for every document
that fits a single page: on an empty buffer pool the insert of a 2-byte
document already fails (no page allocation), so no `DocumentId` is ever
produced for `get`. -/
theorem insert_then_get_roundtrip_fails :
    (StorageEngine.insert_document ⟨⟨8, [], ⟨[]⟩⟩⟩ ⟨[5, 6]⟩).1 =
      .error (.noSpaceAllocUnimplemented 2) := by
  rfl

/-- C5: a document whose length plus slot overhead exceeds an empty page's
capacity (60 + 5 > 64 − 8) is rejected, but with the generic
allocation-unimplemented error, not `DocumentTooLarge`. -/
theorem oversized_document_error_kind :
    (StorageEngine.insert_document
        ⟨⟨4, [⟨0, ⟨64, [], 64⟩, 0, false⟩], ⟨[⟨64, [], 64⟩]⟩⟩⟩
        ⟨List.replicate 60 7⟩).1 =
      .error (.noSpaceAllocUnimplemented 60) := by
  rfl

/-! ## C2: the engine's free-space check -/

/-- Counterexample to C2: a resident page with free space exactly equal to
the document's length (10 = 18 − 8) is handed to the slotted-page insert —
`insertAttempt` appears in the trace — although its free space is below the
document's length plus the slot overhead. -/
theorem insert_check_counterexample :
    Ev.insertAttempt 0 10 ∈
      (StorageEngine.insert_document ⟨⟨4, [⟨0, ⟨100, [], 18⟩, 0, false⟩], ⟨[]⟩⟩⟩
        ⟨List.replicate 10 1⟩).2.2 ∧
    10 < (List.replicate 10 1).length + slotEntrySize := by
  decide

theorem insert_document_eq (se : StorageEngine) (document : Document) :
    se.insert_document document =
      ((insertScan document.encoded se.buffer_pool se.buffer_pool.get_all_page_ids).1,
       ⟨(insertScan document.encoded se.buffer_pool se.buffer_pool.get_all_page_ids).2.1⟩,
       (insertScan document.encoded se.buffer_pool se.buffer_pool.get_all_page_ids).2.2) :=
  rfl

theorem insertScan_never_pageFull (documentBytes : List Nat) (ids : List Nat) :
    ∀ bp : BufferPool, (insertScan documentBytes bp ids).1 ≠ .error .pageFull := by
  induction ids with
  | nil => intro bp; simp [insertScan]
  | cons pid rest ih =>
    intro bp
    cases hpin : bp.pin_page pid with
    | error e => simpa [insertScan, hpin] using ih bp
    | ok t =>
      obtain ⟨page, bp1, evs1⟩ := t
      by_cases hfit : documentBytes.length ≤ page.get_free_space
      · cases hins : PageLayout.insert_document page documentBytes with
        | ok pr => simp [insertScan, hpin, hfit, hins]
        | error e => simpa [insertScan, hpin, hfit, hins] using ih _
      · simpa [insertScan, hpin, hfit] using ih _

/-- C4: a `PageFull` failure of the slotted insert on one candidate makes
the engine unpin that page clean (`is_dirty = false`) and hand the result
of the scan over to the remaining candidates unchanged, and no caller of
`insert_document` ever receives a `PageFull` error. -/
theorem insert_pageFull_skip (documentBytes : List Nat) (bp : BufferPool)
    (pageId : Nat) (rest : List Nat) (page : SlottedPage) (bp1 : BufferPool)
    (evs1 : List Ev)
    (hpin : bp.pin_page pageId = .ok (page, bp1, evs1))
    (hfit : documentBytes.length ≤ page.get_free_space)
    (hfull : PageLayout.insert_document page documentBytes = .error .pageFull) :
    (insertScan documentBytes bp (pageId :: rest)).1 =
      (insertScan documentBytes (bp1.unpin_page pageId false).1 rest).1 ∧
    (insertScan documentBytes bp (pageId :: rest)).2.2 =
      evs1 ++ [Ev.insertAttempt pageId page.get_free_space, Ev.unpin pageId false] ++
        (insertScan documentBytes (bp1.unpin_page pageId false).1 rest).2.2 ∧
    ∀ (se : StorageEngine) (document : Document),
      (se.insert_document document).1 ≠ .error .pageFull := by
  refine ⟨?_, ?_, ?_⟩
  · simp [insertScan, hpin, hfit, hfull]
  · simp [insertScan, hpin, hfit, hfull, BufferPool.unpin_page]
  · intro se document
    rw [insert_document_eq]
    exact insertScan_never_pageFull document.encoded se.buffer_pool.get_all_page_ids
      se.buffer_pool

/-- Witness for C4: a concrete scan step whose head candidate has free
space 12 for a 12-byte document, so the slotted insert fails `PageFull`;
the conclusion is applied to a concrete engine. -/
theorem insert_pageFull_skip_witness :
    (StorageEngine.insert_document ⟨⟨4, [], ⟨[]⟩⟩⟩ ⟨[0]⟩).1 ≠ .error .pageFull :=
  (insert_pageFull_skip (List.replicate 12 3)
      ⟨4, [⟨0, ⟨100, [], 20⟩, 0, false⟩], ⟨[]⟩⟩ 0 []
      ⟨100, [], 20⟩ ⟨4, [⟨0, ⟨100, [], 20⟩, 1, false⟩], ⟨[]⟩⟩ [Ev.pin 0]
      (by rfl) (by decide) (by rfl)).2.2 ⟨⟨4, [], ⟨[]⟩⟩⟩ ⟨[0]⟩

theorem insertScan_attempt_fits (documentBytes : List Nat) (ids : List Nat) :
    ∀ (bp : BufferPool) (pageId fs : Nat),
      Ev.insertAttempt pageId fs ∈ (insertScan documentBytes bp ids).2.2 →
      documentBytes.length ≤ fs := by
  induction ids with
  | nil => intro bp pageId fs h; simp [insertScan] at h
  | cons pid rest ih =>
    intro bp pageId fs h
    cases hpin : bp.pin_page pid with
    | error e =>
      rw [show insertScan documentBytes bp (pid :: rest) =
            insertScan documentBytes bp rest by simp [insertScan, hpin]] at h
      exact ih bp pageId fs h
    | ok t =>
      obtain ⟨page, bp1, evs1⟩ := t
      have hno := pin_page_evs_no_attempt bp pid page bp1 evs1 hpin pageId fs
      by_cases hfit : documentBytes.length ≤ page.get_free_space
      · cases hins : PageLayout.insert_document page documentBytes with
        | ok pr =>
          obtain ⟨slotId, page2⟩ := pr
          rw [show (insertScan documentBytes bp (pid :: rest)).2.2 =
                evs1 ++ [Ev.insertAttempt pid page.get_free_space, Ev.insertOk pid slotId] ++
                  [Ev.unpin pid true]
              by simp [insertScan, hpin, hfit, hins, BufferPool.unpin_page]] at h
          rcases List.mem_append.mp h with h | h
          · rcases List.mem_append.mp h with h | h
            · exact absurd h hno
            · rcases List.mem_cons.mp h with he | h
              · injection he with h1 h2
                rw [h2]
                exact hfit
              · rcases List.mem_cons.mp h with he | h
                · exact Ev.noConfusion he
                · exact absurd h (List.not_mem_nil _)
          · rcases List.mem_cons.mp h with he | h
            · exact Ev.noConfusion he
            · exact absurd h (List.not_mem_nil _)
        | error e =>
          rw [show (insertScan documentBytes bp (pid :: rest)).2.2 =
                evs1 ++ [Ev.insertAttempt pid page.get_free_space] ++ [Ev.unpin pid false] ++
                  (insertScan documentBytes (bp1.unpin_page pid false).1 rest).2.2
              by simp [insertScan, hpin, hfit, hins, BufferPool.unpin_page]] at h
          rcases List.mem_append.mp h with h | h
          · rcases List.mem_append.mp h with h | h
            · rcases List.mem_append.mp h with h | h
              · exact absurd h hno
              · rcases List.mem_cons.mp h with he | h
                · injection he with h1 h2
                  rw [h2]
                  exact hfit
                · exact absurd h (List.not_mem_nil _)
            · rcases List.mem_cons.mp h with he | h
              · exact Ev.noConfusion he
              · exact absurd h (List.not_mem_nil _)
          · exact ih _ pageId fs h
      · rw [show (insertScan documentBytes bp (pid :: rest)).2.2 =
              evs1 ++ [Ev.unpin pid false] ++
                (insertScan documentBytes (bp1.unpin_page pid false).1 rest).2.2
            by simp [insertScan, hpin, hfit, BufferPool.unpin_page]] at h
        rcases List.mem_append.mp h with h | h
        · rcases List.mem_append.mp h with h | h
          · exact absurd h hno
          · rcases List.mem_cons.mp h with he | h
            · exact Ev.noConfusion he
            · exact absurd h (List.not_mem_nil _)
        · exact ih _ pageId fs h

/-- C2 (amended): a resident candidate page is handed to the slotted-page
insert exactly under the check the code performs — observed free space at
least the document's encoded length; the slot-directory overhead is not
part of the engine's check (the slotted insert itself re-checks with the
overhead and fails `PageFull`). -/
theorem insert_document_attempt_length_check (se : StorageEngine)
    (document : Document) (pageId fs : Nat)
    (h : Ev.insertAttempt pageId fs ∈ (se.insert_document document).2.2) :
    document.encoded.length ≤ fs := by
  rw [insert_document_eq] at h
  exact insertScan_attempt_fits document.encoded se.buffer_pool.get_all_page_ids
    se.buffer_pool pageId fs h

/-- Witness for the amended C2: on a pool with one page of free space 92, a
2-byte document's insert attempt is in the trace, so 2 ≤ 92. -/
theorem insert_document_attempt_length_check_witness :
    (Document.mk [1, 2]).encoded.length ≤ 92 :=
  insert_document_attempt_length_check
    ⟨⟨4, [⟨0, ⟨100, [], 100⟩, 0, false⟩], ⟨[]⟩⟩⟩ ⟨[1, 2]⟩ 0 92 (by decide)

theorem insertScan_success_trace (documentBytes : List Nat) (ids : List Nat) :
    ∀ (bp : BufferPool) (id : DocumentId),
      (insertScan documentBytes bp ids).1 = .ok id →
      Ev.unpin id.page_id true ∈ (insertScan documentBytes bp ids).2.2 ∧
      Ev.insertOk id.page_id id.slot_id ∈ (insertScan documentBytes bp ids).2.2 := by
  induction ids with
  | nil => intro bp id h; simp [insertScan] at h
  | cons pid rest ih =>
    intro bp id h
    cases hpin : bp.pin_page pid with
    | error e =>
      have hrw : insertScan documentBytes bp (pid :: rest) =
          insertScan documentBytes bp rest := by simp [insertScan, hpin]
      rw [hrw] at h ⊢
      exact ih bp id h
    | ok t =>
      obtain ⟨page, bp1, evs1⟩ := t
      by_cases hfit : documentBytes.length ≤ page.get_free_space
      · cases hins : PageLayout.insert_document page documentBytes with
        | ok pr =>
          obtain ⟨slotId, page2⟩ := pr
          have hres : (insertScan documentBytes bp (pid :: rest)).1 = .ok ⟨pid, slotId⟩ := by
            simp [insertScan, hpin, hfit, hins]
          have hid : id = ⟨pid, slotId⟩ := by
            have := h.symm.trans hres
            exact (Except.ok.inj this)
          subst hid
          rw [show (insertScan documentBytes bp (pid :: rest)).2.2 =
                evs1 ++ [Ev.insertAttempt pid page.get_free_space, Ev.insertOk pid slotId] ++
                  [Ev.unpin pid true]
              by simp [insertScan, hpin, hfit, hins, BufferPool.unpin_page]]
          constructor
          · exact List.mem_append.mpr (Or.inr (by simp))
          · exact List.mem_append.mpr (Or.inl (List.mem_append.mpr (Or.inr (by simp))))
        | error e =>
          have hrw1 : (insertScan documentBytes bp (pid :: rest)).1 =
              (insertScan documentBytes (bp1.unpin_page pid false).1 rest).1 := by
            simp [insertScan, hpin, hfit, hins]
          rw [hrw1] at h
          obtain ⟨m1, m2⟩ := ih _ id h
          rw [show (insertScan documentBytes bp (pid :: rest)).2.2 =
                evs1 ++ [Ev.insertAttempt pid page.get_free_space] ++ [Ev.unpin pid false] ++
                  (insertScan documentBytes (bp1.unpin_page pid false).1 rest).2.2
              by simp [insertScan, hpin, hfit, hins, BufferPool.unpin_page]]
          exact ⟨List.mem_append.mpr (Or.inr m1), List.mem_append.mpr (Or.inr m2)⟩
      · have hrw1 : (insertScan documentBytes bp (pid :: rest)).1 =
            (insertScan documentBytes (bp1.unpin_page pid false).1 rest).1 := by
          simp [insertScan, hpin, hfit]
        rw [hrw1] at h
        obtain ⟨m1, m2⟩ := ih _ id h
        rw [show (insertScan documentBytes bp (pid :: rest)).2.2 =
              evs1 ++ [Ev.unpin pid false] ++
                (insertScan documentBytes (bp1.unpin_page pid false).1 rest).2.2
            by simp [insertScan, hpin, hfit, BufferPool.unpin_page]]
        exact ⟨List.mem_append.mpr (Or.inr m1), List.mem_append.mpr (Or.inr m2)⟩

/-- C6: a successful `insert_document` unpins the receiving page with
`is_dirty = true`, and the returned `DocumentId` carries the id of that
page together with the slot id returned by the slotted-page insert (the
`insertOk` trace event records exactly the slotted insert's result on the
pinned page). -/
theorem insert_document_success_dirty_and_slot (se : StorageEngine)
    (document : Document) (id : DocumentId)
    (h : (se.insert_document document).1 = .ok id) :
    Ev.unpin id.page_id true ∈ (se.insert_document document).2.2 ∧
    Ev.insertOk id.page_id id.slot_id ∈ (se.insert_document document).2.2 := by
  rw [insert_document_eq] at h ⊢
  exact insertScan_success_trace document.encoded se.buffer_pool.get_all_page_ids
    se.buffer_pool id h

/-- Witness for C6: a successful concrete insert into a resident page with
ample free space. -/
theorem insert_document_success_dirty_and_slot_witness :
    Ev.unpin 0 true ∈
      (StorageEngine.insert_document ⟨⟨4, [⟨0, ⟨100, [], 100⟩, 0, false⟩], ⟨[]⟩⟩⟩
        ⟨[9, 9]⟩).2.2 :=
  (insert_document_success_dirty_and_slot
    ⟨⟨4, [⟨0, ⟨100, [], 100⟩, 0, false⟩], ⟨[]⟩⟩⟩ ⟨[9, 9]⟩ ⟨0, 0⟩ (by rfl)).1

theorem insertScan_resident_only (documentBytes : List Nat) (ids : List Nat) :
    ∀ bp : BufferPool, (∀ pid ∈ ids, pid ∈ bp.get_all_page_ids) →
      (∀ e ∈ (insertScan documentBytes bp ids).2.2, e.isDiskReadEv = false) ∧
      (∀ pid2, Ev.pin pid2 ∈ (insertScan documentBytes bp ids).2.2 → pid2 ∈ ids) := by
  induction ids with
  | nil =>
    intro bp hres
    exact ⟨by simp [insertScan], by simp [insertScan]⟩
  | cons pid rest ih =>
    intro bp hres
    obtain ⟨pg, bp2, hpin, hids⟩ := pin_page_resident bp pid (hres pid (by simp))
    have hrest : ∀ q ∈ rest, q ∈ ((bp2.unpin_page pid false).1).get_all_page_ids := by
      intro q hq
      rw [unpin_page_ids, hids]
      exact hres q (by simp [hq])
    by_cases hfit : documentBytes.length ≤ pg.get_free_space
    · cases hins : PageLayout.insert_document pg documentBytes with
      | ok pr =>
        obtain ⟨slotId, page2⟩ := pr
        rw [show (insertScan documentBytes bp (pid :: rest)).2.2 =
              [Ev.pin pid] ++
                [Ev.insertAttempt pid pg.get_free_space, Ev.insertOk pid slotId] ++
                [Ev.unpin pid true]
            by simp [insertScan, hpin, hfit, hins, BufferPool.unpin_page]]
        constructor
        · intro e he
          rcases List.mem_append.mp he with he | he
          · rcases List.mem_append.mp he with he | he
            · rcases List.mem_cons.mp he with he | he
              · rw [he]; rfl
              · exact absurd he (List.not_mem_nil _)
            · rcases List.mem_cons.mp he with he | he
              · rw [he]; rfl
              · rcases List.mem_cons.mp he with he | he
                · rw [he]; rfl
                · exact absurd he (List.not_mem_nil _)
          · rcases List.mem_cons.mp he with he | he
            · rw [he]; rfl
            · exact absurd he (List.not_mem_nil _)
        · intro pid2 hm
          rcases List.mem_append.mp hm with hm | hm
          · rcases List.mem_append.mp hm with hm | hm
            · rcases List.mem_cons.mp hm with hm | hm
              · injection hm with h1
                exact List.mem_cons.mpr (Or.inl h1)
              · exact absurd hm (List.not_mem_nil _)
            · rcases List.mem_cons.mp hm with hm | hm
              · exact Ev.noConfusion hm
              · rcases List.mem_cons.mp hm with hm | hm
                · exact Ev.noConfusion hm
                · exact absurd hm (List.not_mem_nil _)
          · rcases List.mem_cons.mp hm with hm | hm
            · exact Ev.noConfusion hm
            · exact absurd hm (List.not_mem_nil _)
      | error e =>
        obtain ⟨d1, d2⟩ := ih _ hrest
        rw [show (insertScan documentBytes bp (pid :: rest)).2.2 =
              [Ev.pin pid] ++ [Ev.insertAttempt pid pg.get_free_space] ++
                [Ev.unpin pid false] ++
                (insertScan documentBytes ((bp2.unpin_page pid false).1) rest).2.2
            by simp [insertScan, hpin, hfit, hins, BufferPool.unpin_page]]
        constructor
        · intro e he
          rcases List.mem_append.mp he with he | he
          · rcases List.mem_append.mp he with he | he
            · rcases List.mem_append.mp he with he | he
              · rcases List.mem_cons.mp he with he | he
                · rw [he]; rfl
                · exact absurd he (List.not_mem_nil _)
              · rcases List.mem_cons.mp he with he | he
                · rw [he]; rfl
                · exact absurd he (List.not_mem_nil _)
            · rcases List.mem_cons.mp he with he | he
              · rw [he]; rfl
              · exact absurd he (List.not_mem_nil _)
          · exact d1 e he
        · intro pid2 hm
          rcases List.mem_append.mp hm with hm | hm
          · rcases List.mem_append.mp hm with hm | hm
            · rcases List.mem_append.mp hm with hm | hm
              · rcases List.mem_cons.mp hm with hm | hm
                · injection hm with h1
                  exact List.mem_cons.mpr (Or.inl h1)
                · exact absurd hm (List.not_mem_nil _)
              · rcases List.mem_cons.mp hm with hm | hm
                · exact Ev.noConfusion hm
                · exact absurd hm (List.not_mem_nil _)
            · rcases List.mem_cons.mp hm with hm | hm
              · exact Ev.noConfusion hm
              · exact absurd hm (List.not_mem_nil _)
          · exact List.mem_cons.mpr (Or.inr (d2 pid2 hm))
    · obtain ⟨d1, d2⟩ := ih _ hrest
      rw [show (insertScan documentBytes bp (pid :: rest)).2.2 =
            [Ev.pin pid] ++ [Ev.unpin pid false] ++
              (insertScan documentBytes ((bp2.unpin_page pid false).1) rest).2.2
          by simp [insertScan, hpin, hfit, BufferPool.unpin_page]]
      constructor
      · intro e he
        rcases List.mem_append.mp he with he | he
        · rcases List.mem_append.mp he with he | he
          · rcases List.mem_cons.mp he with he | he
            · rw [he]; rfl
            · exact absurd he (List.not_mem_nil _)
          · rcases List.mem_cons.mp he with he | he
            · rw [he]; rfl
            · exact absurd he (List.not_mem_nil _)
        · exact d1 e he
      · intro pid2 hm
        rcases List.mem_append.mp hm with hm | hm
        · rcases List.mem_append.mp hm with hm | hm
          · rcases List.mem_cons.mp hm with hm | hm
            · injection hm with h1
              exact List.mem_cons.mpr (Or.inl h1)
            · exact absurd hm (List.not_mem_nil _)
          · rcases List.mem_cons.mp hm with hm | hm
            · exact Ev.noConfusion hm
            · exact absurd hm (List.not_mem_nil _)
        · exact List.mem_cons.mpr (Or.inr (d2 pid2 hm))

/-- C7: `insert_document`'s scan touches only pages already resident in the
snapshot `get_all_page_ids()` taken at the start — every page it pins is in
that snapshot — and it performs no disk read while scanning. -/
theorem insert_document_scans_resident_only (se : StorageEngine)
    (document : Document) :
    (∀ e ∈ (se.insert_document document).2.2, e.isDiskReadEv = false) ∧
    (∀ pid, Ev.pin pid ∈ (se.insert_document document).2.2 →
      pid ∈ se.buffer_pool.get_all_page_ids) := by
  rw [insert_document_eq]
  obtain ⟨d1, d2⟩ := insertScan_resident_only document.encoded
    se.buffer_pool.get_all_page_ids se.buffer_pool (fun pid h => h)
  exact ⟨d1, fun pid h => d2 pid h⟩

/-- Witness for C7: on a concrete pool with one resident page, the page
pinned by the scan is in the snapshot. -/
theorem insert_document_scans_resident_only_witness :
    (0 : Nat) ∈
      BufferPool.get_all_page_ids ⟨4, [⟨0, ⟨100, [], 100⟩, 0, false⟩], ⟨[]⟩⟩ :=
  (insert_document_scans_resident_only
    ⟨⟨4, [⟨0, ⟨100, [], 100⟩, 0, false⟩], ⟨[]⟩⟩⟩ ⟨[1]⟩).2 0 (by decide)

theorem insertScan_pin_unpin_counts (documentBytes : List Nat) (pid2 : Nat)
    (ids : List Nat) :
    ∀ bp : BufferPool,
      pinCount pid2 (insertScan documentBytes bp ids).2.2 =
      unpinCount pid2 (insertScan documentBytes bp ids).2.2 := by
  induction ids with
  | nil => intro bp; simp [insertScan, pinCount, unpinCount]
  | cons pid rest ih =>
    intro bp
    cases hpin : bp.pin_page pid with
    | error e =>
      rw [show insertScan documentBytes bp (pid :: rest) =
            insertScan documentBytes bp rest by simp [insertScan, hpin]]
      exact ih bp
    | ok t =>
      obtain ⟨page, bp1, evs1⟩ := t
      obtain ⟨hpc, huc⟩ := pin_page_evs_counts bp pid page bp1 evs1 hpin pid2
      by_cases hfit : documentBytes.length ≤ page.get_free_space
      · cases hins : PageLayout.insert_document page documentBytes with
        | ok pr =>
          obtain ⟨slotId, page2⟩ := pr
          rw [show (insertScan documentBytes bp (pid :: rest)).2.2 =
                evs1 ++ [Ev.insertAttempt pid page.get_free_space, Ev.insertOk pid slotId] ++
                  [Ev.unpin pid true]
              by simp [insertScan, hpin, hfit, hins, BufferPool.unpin_page]]
          rw [pinCount_append, pinCount_append, unpinCount_append, unpinCount_append,
            hpc, huc]
          simp [pinCount, unpinCount]
        | error e =>
          have ihr := ih ((bp1.unpin_page pid false).1)
          rw [show (insertScan documentBytes bp (pid :: rest)).2.2 =
                evs1 ++ [Ev.insertAttempt pid page.get_free_space] ++ [Ev.unpin pid false] ++
                  (insertScan documentBytes (bp1.unpin_page pid false).1 rest).2.2
              by simp [insertScan, hpin, hfit, hins, BufferPool.unpin_page]]
          rw [pinCount_append, pinCount_append, pinCount_append,
            unpinCount_append, unpinCount_append, unpinCount_append, hpc, huc]
          simp [pinCount, unpinCount]
          omega
      · have ihr := ih ((bp1.unpin_page pid false).1)
        rw [show (insertScan documentBytes bp (pid :: rest)).2.2 =
              evs1 ++ [Ev.unpin pid false] ++
                (insertScan documentBytes (bp1.unpin_page pid false).1 rest).2.2
            by simp [insertScan, hpin, hfit, BufferPool.unpin_page]]
        rw [pinCount_append, pinCount_append,
          unpinCount_append, unpinCount_append, hpc, huc]
        simp [pinCount, unpinCount]
        omega

/-- C9: on every execution path of `insert_document`, for every page id the
number of pins of that page in the trace equals the number of unpins — each
successfully pinned page is unpinned exactly once, no pin is leaked and no
page is double-unpinned. -/
theorem insert_document_pin_unpin_balanced (se : StorageEngine)
    (document : Document) (pageId : Nat) :
    pinCount pageId (se.insert_document document).2.2 =
    unpinCount pageId (se.insert_document document).2.2 := by
  rw [insert_document_eq]
  exact insertScan_pin_unpin_counts document.encoded pageId
    se.buffer_pool.get_all_page_ids se.buffer_pool

end RustDb
